import Mathlib

/-!
# FastTextWrapper: the inference facade of jfasttext

A shallow embedding of `src/main/cpp/fasttext_wrapper.cc`.

* Files are byte sequences looked up by path; a path that cannot be opened
  has no content.
* A `std::ifstream` is its open flag, its good flag and the unread bytes.
* A local `int32_t` written through `(char*)&x` is a cell of four bytes; a
  local that was declared without an initialiser starts with whatever
  bytes its stack slot held, which the embedding takes as an argument.
* The `fasttext::FastText` object the facade wraps belongs to the fastText
  library; its public operations are fields of the record `FastText`.
-/

namespace FastTextWrapper

/-! ## Bytes, 32-bit cells and input streams -/

/-- One `char` of storage. -/
abbrev Byte := Fin 256

/-- The storage of one `int32_t` object: four bytes in address order. -/
structure Word32 where
  b0 : Byte
  b1 : Byte
  b2 : Byte
  b3 : Byte
deriving DecidableEq, Repr

/-- Unsigned value of a four-byte cell in the host's byte order. -/
def Word32.toNat (bigEndian : Bool) (w : Word32) : Nat :=
  if bigEndian then
    w.b3.val + 256 * w.b2.val + 65536 * w.b1.val + 16777216 * w.b0.val
  else
    w.b0.val + 256 * w.b1.val + 65536 * w.b2.val + 16777216 * w.b3.val

/-- Value of a four-byte cell read as a two's complement `int32_t` in the
host's byte order. -/
def Word32.toInt32 (bigEndian : Bool) (w : Word32) : Int :=
  let u := w.toNat bigEndian
  if u < 2147483648 then (u : Int) else (u : Int) - 4294967296

/-- A file system as seen by `std::ifstream`: the bytes of the file at a
path, or nothing when the file cannot be opened. -/
abbrev FileSystem := String → Option (List Byte)

/-- State of a `std::ifstream`. -/
structure IfStream where
  /-- Result of `is_open()`. -/
  isOpen : Bool
  /-- No error bit is set: extraction is attempted only when this holds. -/
  good : Bool
  /-- Bytes not yet extracted. -/
  rest : List Byte
deriving DecidableEq, Repr

/-- Constructor `std::ifstream in(filename, ...)`: a failed open leaves the
stream closed with the fail bit set. -/
def IfStream.open (fs : FileSystem) (filename : String) : IfStream :=
  match fs filename with
  | some content => { isOpen := true, good := true, rest := content }
  | none => { isOpen := false, good := false, rest := [] }

/-- Call `in.read((char*)&x, sizeof(int32_t))`. On a stream that is not good
nothing is extracted and the destination keeps its bytes. Otherwise up to four
bytes are stored at the start of the destination; when fewer than four are
available the remaining destination bytes keep their old values and the
stream stops being good. -/
def IfStream.read4 (s : IfStream) (dst : Word32) : IfStream × Word32 :=
  if s.good then
    match s.rest with
    | a :: b :: c :: d :: tl => ({ s with rest := tl }, ⟨a, b, c, d⟩)
    | [a, b, c] => ({ s with good := false, rest := [] }, ⟨a, b, c, dst.b3⟩)
    | [a, b] => ({ s with good := false, rest := [] }, ⟨a, b, dst.b2, dst.b3⟩)
    | [a] => ({ s with good := false, rest := [] }, ⟨a, dst.b1, dst.b2, dst.b3⟩)
    | [] => ({ s with good := false, rest := [] }, dst)
  else
    (s, dst)

/-- The four bytes of a file's content starting at offset `off`, as a cell
(missing bytes read as zero; used only where the bytes exist). -/
def bytesAt (content : List Byte) (off : Nat) : Word32 :=
  ⟨content.getD off 0, content.getD (off + 1) 0, content.getD (off + 2) 0,
    content.getD (off + 3) 0⟩

/-! ## Header validator -/

/-- Function `FastTextApi::checkModel`. `MAGIC` and `VERSION` stand for the
constants `FASTTEXT_FILEFORMAT_MAGIC_INT32` and `FASTTEXT_VERSION` of the
fastText headers. `magic0` and `version0` are the bytes that the stack slots
of the uninitialised locals `magic` and `version` hold on entry. -/
def checkModel (MAGIC VERSION : Int) (bigEndian : Bool) (fs : FileSystem)
    (magic0 version0 : Word32) (filename : String) : Bool :=
  let in0 := IfStream.open fs filename
  let r1 := in0.read4 magic0
  let magic := r1.2
  if magic.toInt32 bigEndian ≠ MAGIC then
    false
  else
    let r2 := r1.1.read4 version0
    let version := r2.2
    if version.toInt32 bigEndian ≠ VERSION then
      false
    else
      true

/-! ## The wrapped fastText object -/

/-- Modelled from the spec: the enumeration `fasttext::loss_name` of the
fastText headers, the closed set of loss kinds hierarchical-softmax,
negative-sampling and softmax. -/
inductive loss_name where
  | hs
  | ns
  | softmax
deriving DecidableEq, Repr

/-- Modelled from the spec: the enumeration `fasttext::model_name` of the
fastText headers, the closed set of architecture kinds
continuous-bag-of-words, skip-gram and supervised. -/
inductive model_name where
  | cbow
  | sg
  | sup
deriving DecidableEq, Repr

/-- The fields of `fasttext::Args` that the facade decodes. -/
structure Args where
  loss : loss_name
  model : model_name
deriving DecidableEq, Repr

/-- The operations of `fasttext::Dictionary` that the facade calls, with
their `int32_t` arguments and results as integers. -/
structure Dictionary where
  nwords : Int
  getWord : Int → String
  nlabels : Int
  getLabel : Int → String

/-- Modelled from the spec: the class `fasttext::Vector` of the fastText
headers, a fixed-length sequence of reals; its length is chosen when it is
constructed and routines that receive it only write its entries. -/
structure Vector (R : Type) where
  size : Nat
  data : Fin size → R

/-- Modelled from the spec: the constructor `fasttext::Vector(m)`, a fresh
vector of length `m`; no vector of negative length exists. -/
def Vector.alloc {R : Type} [Inhabited R] (m : Int) : Option (Vector R) :=
  if 0 ≤ m then some ⟨m.toNat, fun _ => default⟩ else none

/-- The public operations of a loaded `fasttext::FastText` object that the
facade calls. `R` is the type `fasttext::real`. The routines that fill a
vector receive its length and entries and give back the new entries; the
prediction routine receives the output vector and gives back its new
content. -/
structure FastText (R : Type) where
  getDimension : Int
  getArgs : Args
  getDictionary : Dictionary
  predict : String → Int → List (R × String) → R → List (R × String)
  getWordVector : (n : Nat) → (Fin n → R) → String → (Fin n → R)
  getSentenceVector : String → (n : Nat) → (Fin n → R) → (Fin n → R)
  getSubwordVector : (n : Nat) → (Fin n → R) → String → (Fin n → R)

/-- The five shared-ownership members of `fasttext::FastText` that the facade
reaches through `privateMembers`; `none` is a null `shared_ptr`. `Matrix` and
`Model` are the types of the matrices and of the scoring model. -/
structure FastTextPrivateMembers (Matrix Model : Type) where
  args_ : Option Args
  dict_ : Option Dictionary
  input_ : Option Matrix
  output_ : Option Matrix
  model_ : Option Model

/-- Modelled from the spec: the members of a freshly constructed
`fasttext::FastText`, before any `loadModel`: the handle starts unloaded, no
sub-resource is held. The constructor `FastTextApi::FastTextApi` only takes
the address of this object. -/
def FastTextPrivateMembers.fresh {Matrix Model : Type} :
    FastTextPrivateMembers Matrix Model :=
  { args_ := none, dict_ := none, input_ := none, output_ := none, model_ := none }

/-! ## Model handle -/

/-- Function `FastTextApi::unloadModel`: five `reset()` calls in source
order. -/
def unloadModel {Matrix Model : Type} (p : FastTextPrivateMembers Matrix Model) :
    FastTextPrivateMembers Matrix Model :=
  let p := { p with args_ := none }
  let p := { p with dict_ := none }
  let p := { p with input_ := none }
  let p := { p with output_ := none }
  { p with model_ := none }

/-- Function `FastTextApi::isModelLoaded`: the `bool` conversion of the
`model_` pointer. -/
def isModelLoaded {Matrix Model : Type} (p : FastTextPrivateMembers Matrix Model) :
    Bool :=
  match p.model_ with
  | some _ => true
  | none => false

/-- Status passed to `exit`. -/
inductive ExitStatus where
  | success
  | failure
deriving DecidableEq, Repr

/-- What a call of `FastTextApi::test` does, in order. -/
inductive Event where
  /-- A line written to `std::cerr`. -/
  | cerr (msg : String)
  /-- A call `fastText.test(ifs, k)` of the evaluation routine. -/
  | fastTextTest (ifs : IfStream) (k : Int)
deriving DecidableEq, Repr

/-- Effects of one call and how it ended: `exited = some st` when the call
ended the process through `exit(st)`, `none` when it returned. -/
structure Run where
  trace : List Event
  exited : Option ExitStatus
deriving DecidableEq, Repr

/-- Function `FastTextApi::test`. The evaluation routine is an external call
recorded in the trace; it is taken to return. -/
def test (fs : FileSystem) (filename : String) (k : Int) : Run :=
  let ifs := IfStream.open fs filename
  if !ifs.isOpen then
    { trace := [Event.cerr "fasttest_wrapper.cc: Test file cannot be opened!"],
      exited := some ExitStatus.failure }
  else
    { trace := [Event.fastTextTest ifs k], exited := none }

/-- Whether an event is a call of the evaluation routine. -/
def Event.isTestCall : Event → Bool
  | Event.fastTextTest _ _ => true
  | Event.cerr _ => false

/-! ## Prediction engine -/

/-- Function `FastTextApi::predictProba(text, k, threshold)`: an empty
vector is handed to `fastText.predict` together with the text as a stream. -/
def predictProba {R : Type} (fastText : FastText R) (text : String) (k : Int)
    (threshold : R) : List (R × String) :=
  let predictions : List (R × String) := []
  fastText.predict text k predictions threshold

/-- Function `FastTextApi::predict(text, k, threshold)`: the loop pushes the
second component of every prediction, front to back. -/
def predict {R : Type} (fastText : FastText R) (text : String) (k : Int)
    (threshold : R) : List String :=
  let predictions := predictProba fastText text k threshold
  predictions.foldl (fun labels it => labels ++ [it.2]) []

/-- Order on predictions used by the scorer: `a` ranks before `b` when its
probability is at least as large. -/
def probGE {R : Type} [LinearOrder R] (a b : R × String) : Prop := b.1 ≤ a.1

instance {R : Type} [LinearOrder R] : DecidableRel (probGE : R × String → R × String → Prop) :=
  fun a b => inferInstanceAs (Decidable (b.1 ≤ a.1))

instance {R : Type} [LinearOrder R] : IsTotal (R × String) probGE :=
  ⟨fun a b => le_total b.1 a.1⟩

instance {R : Type} [LinearOrder R] : IsTrans (R × String) probGE :=
  ⟨fun _ _ _ hab hbc => le_trans hbc hab⟩

/-- Modelled from the spec: the routine `fasttext::FastText::predict` of the
fastText library, which the facade calls. Spec 4.3: the internal top-k scorer is asked for at
most `k` candidates; candidates with probability strictly below `threshold`
are excluded; the remaining candidates are returned in descending-probability
order; `k <= 0` yields an empty sequence. `candidates text` is the list of
(probability, label) candidates the model holds for the text, probabilities
in a linear order (rounding and NaN of floating point are not modelled). -/
def specPredict {R : Type} [LinearOrder R] (candidates : String → List (R × String))
    (text : String) (k : Int) (_predictions : List (R × String)) (threshold : R) :
    List (R × String) :=
  if k ≤ 0 then []
  else
    (((candidates text).filter (fun c => decide (threshold ≤ c.1))).insertionSort
      probGE).take k.toNat

/-- Modelled from the spec: a fastText object whose prediction routine is
`specPredict` over the given candidates; the other operations are those of
`base`. -/
def specFastText {R : Type} [LinearOrder R] (base : FastText R)
    (candidates : String → List (R × String)) : FastText R :=
  { base with predict := specPredict candidates }

/-! ## Hyperparameter registry -/

/-- Function `FastTextApi::getDim`. -/
def getDim {R : Type} (fastText : FastText R) : Int :=
  fastText.getDimension

/-- Result of an accessor that may end the process: the returned value, or
the diagnostic written to `std::cerr` and the status passed to `exit`. -/
inductive Outcome (α : Type) where
  | ret (value : α)
  | exit (diagnostic : String) (status : ExitStatus)
deriving DecidableEq, Repr

/-- Function `FastTextApi::getLossName`. -/
def getLossName {R : Type} (fastText : FastText R) : Outcome String :=
  let lossName := fastText.getArgs.loss
  if lossName = loss_name.ns then
    Outcome.ret "ns"
  else if lossName = loss_name.hs then
    Outcome.ret "hs"
  else if lossName = loss_name.softmax then
    Outcome.ret "softmax"
  else
    Outcome.exit "fasttest_wrapper.cc: Unrecognized loss name!" ExitStatus.failure

/-- Function `FastTextApi::getModelName`. -/
def getModelName {R : Type} (fastText : FastText R) : Outcome String :=
  let modelName := fastText.getArgs.model
  if modelName = model_name.cbow then
    Outcome.ret "cbow"
  else if modelName = model_name.sg then
    Outcome.ret "sg"
  else if modelName = model_name.sup then
    Outcome.ret "sup"
  else
    Outcome.exit "fasttest_wrapper.cc: Unrecognized model name!" ExitStatus.failure

/-! ## Vector engine -/

/-- The copy `std::vector<real>(vec.data(), vec.data() + vec.size())`. -/
def Vector.toStdVector {R : Type} (vec : Vector R) : List R :=
  List.ofFn vec.data

/-- Function `FastTextApi::getWordVector`; `none` when no vector of length
`getDim()` can be constructed. -/
def getWordVector {R : Type} [Inhabited R] (fastText : FastText R) (word : String) :
    Option (List R) :=
  match Vector.alloc (getDim fastText) with
  | none => none
  | some vec =>
    let vec : Vector R := ⟨vec.size, fastText.getWordVector vec.size vec.data word⟩
    some vec.toStdVector

/-- Function `FastTextApi::getSentenceVector`. -/
def getSentenceVector {R : Type} [Inhabited R] (fastText : FastText R) (text : String) :
    Option (List R) :=
  match Vector.alloc (getDim fastText) with
  | none => none
  | some vec =>
    let vec : Vector R := ⟨vec.size, fastText.getSentenceVector text vec.size vec.data⟩
    some vec.toStdVector

/-- Function `FastTextApi::getVector`. -/
def getVector {R : Type} [Inhabited R] (fastText : FastText R) (word : String) :
    Option (List R) :=
  getWordVector fastText word

/-- Function `FastTextApi::getSubwordVector`. -/
def getSubwordVector {R : Type} [Inhabited R] (fastText : FastText R) (subword : String) :
    Option (List R) :=
  match Vector.alloc (getDim fastText) with
  | none => none
  | some vec =>
    let vec : Vector R := ⟨vec.size, fastText.getSubwordVector vec.size vec.data subword⟩
    some vec.toStdVector

/-! ## Vocabulary index -/

/-- Function `FastTextApi::getNWords`. -/
def getNWords {R : Type} (fastText : FastText R) : Int :=
  fastText.getDictionary.nwords

/-- Function `FastTextApi::getWord`. -/
def getWord {R : Type} (fastText : FastText R) (i : Int) : String :=
  fastText.getDictionary.getWord i

/-- Function `FastTextApi::getNLabels`. -/
def getNLabels {R : Type} (fastText : FastText R) : Int :=
  fastText.getDictionary.nlabels

/-- Function `FastTextApi::getLabel`. -/
def getLabel {R : Type} (fastText : FastText R) (i : Int) : String :=
  fastText.getDictionary.getLabel i

/-- The loop `for (int32_t i = ...; i < n; i++) out.push_back(get(i))` of
`getWords` and `getLabels`, from the state in which the counter is `i` and
the output is `out`. Since `i < n` whenever `i++` runs and `n` is an
`int32_t`, the increment never wraps. -/
def collectLoop (get : Int → String) (n : Int) (i : Int) (out : List String) :
    List String :=
  if i < n then collectLoop get n (i + 1) (out ++ [get i]) else out
termination_by (n - i).toNat
decreasing_by omega

/-- Function `FastTextApi::getWords`. -/
def getWords {R : Type} (fastText : FastText R) : List String :=
  let words : List String := []
  let nwords := getNWords fastText
  collectLoop (getWord fastText) nwords 0 words

/-- Function `FastTextApi::getLabels`. -/
def getLabels {R : Type} (fastText : FastText R) : List String :=
  let labels : List String := []
  let nlabels := getNLabels fastText
  collectLoop (getLabel fastText) nlabels 0 labels

/-! ## Sample objects -/

/-- A file system holding one eight-byte file, `model.bin`, whose header is
the magic 793712314 and the version 12 in little-endian byte order. -/
def sampleFs : FileSystem := fun path =>
  if path = "model.bin" then some [186, 22, 79, 47, 12, 0, 0, 0] else none

/-- A dictionary of two words and two labels. -/
def sampleDictionary : Dictionary :=
  { nwords := 2
    getWord := fun i => if i = 0 then "the" else "fox"
    nlabels := 2
    getLabel := fun i => if i = 0 then "__label__a" else "__label__b" }

/-- Candidates of the sample model: the same three for every text. -/
def sampleCandidates : String → List (ℚ × String) := fun _ =>
  [(3 / 10, "__label__c"), (6 / 10, "__label__a"), (9 / 10, "__label__b")]

/-- A loaded supervised softmax model of dimension 3 with rational reals,
whose vector routines leave the buffer as it is. -/
def sampleFastText : FastText ℚ :=
  { getDimension := 3
    getArgs := { loss := loss_name.softmax, model := model_name.sup }
    getDictionary := sampleDictionary
    predict := specPredict sampleCandidates
    getWordVector := fun _ v _ => v
    getSentenceVector := fun _ _ v => v
    getSubwordVector := fun _ v _ => v }

/-! ## Auxiliary lemmas -/

theorem foldl_push_snd {R : Type} (l : List (R × String)) (acc : List String) :
    l.foldl (fun labels it => labels ++ [it.2]) acc = acc ++ l.map Prod.snd := by
  induction l generalizing acc with
  | nil => simp
  | cons x xs ih => simp [ih]

theorem collectLoop_eq (get : Int → String) (n : Int) :
    ∀ (m : Nat) (i : Int) (out : List String), (n - i).toNat = m →
      collectLoop get n i out = out ++ (List.range m).map (fun j : Nat => get (i + (j : Int))) := by
  intro m
  induction m with
  | zero =>
    intro i out h
    rw [collectLoop]
    have : ¬ i < n := by omega
    simp [this]
  | succ m ih =>
    intro i out h
    rw [collectLoop]
    have hlt : i < n := by omega
    rw [if_pos hlt, ih (i + 1) (out ++ [get i]) (by omega)]
    rw [List.range_succ_eq_map]
    simp only [List.map_cons, List.map_map, List.append_assoc, List.singleton_append]
    congr 2
    · simp
    · apply List.map_congr_left
      intro j _
      simp only [Function.comp, Nat.succ_eq_add_one, Nat.cast_add, Nat.cast_one]
      congr 1
      ring

theorem collectLoop_spec (get : Int → String) (n : Int) (hn : 0 ≤ n) :
    ((collectLoop get n 0 []).length : Int) = n ∧
      ∀ i : Nat, (i : Int) < n → (collectLoop get n 0 [])[i]? = some (get (i : Int)) := by
  rw [collectLoop_eq get n n.toNat 0 [] (by omega)]
  refine ⟨by simp; omega, ?_⟩
  intro i hi
  have hi2 : i < n.toNat := by omega
  simp [List.getElem?_map, List.getElem?_range hi2]

/-! ## Header validator: theorems -/

/-- Claim C1. For a file that can be opened and holds at least 8 bytes,
`checkModel` returns true exactly when bytes 0..3, read as a native-order
signed 32-bit integer, equal the magic constant and bytes 4..7, read the same
way, equal the version constant; whatever the locals held on entry. -/
theorem checkModel_iff_header (MAGIC VERSION : Int) (bigEndian : Bool) (fs : FileSystem)
    (magic0 version0 : Word32) (filename : String) (content : List Byte)
    (hfile : fs filename = some content) (hlen : 8 ≤ content.length) :
    checkModel MAGIC VERSION bigEndian fs magic0 version0 filename = true ↔
      ((bytesAt content 0).toInt32 bigEndian = MAGIC ∧
        (bytesAt content 4).toInt32 bigEndian = VERSION) := by
  match content, hlen with
  | a :: b :: c :: d :: e :: f :: g :: h :: tl, _ =>
    simp [checkModel, IfStream.open, hfile, IfStream.read4, bytesAt]

/-- Claim C1, at the file `model.bin` of `sampleFs` on a little-endian host
with the locals holding zero bytes on entry. -/
theorem checkModel_iff_header_witness :
    sampleFs "model.bin" = some [186, 22, 79, 47, 12, 0, 0, 0] ∧
      8 ≤ ([186, 22, 79, 47, 12, 0, 0, 0] : List Byte).length ∧
      (checkModel 793712314 12 false sampleFs ⟨0, 0, 0, 0⟩ ⟨0, 0, 0, 0⟩ "model.bin" = true ↔
        ((bytesAt [186, 22, 79, 47, 12, 0, 0, 0] 0).toInt32 false = 793712314 ∧
          (bytesAt [186, 22, 79, 47, 12, 0, 0, 0] 4).toInt32 false = 12)) :=
  ⟨by decide, by decide,
    checkModel_iff_header 793712314 12 false sampleFs ⟨0, 0, 0, 0⟩ ⟨0, 0, 0, 0⟩ "model.bin"
      [186, 22, 79, 47, 12, 0, 0, 0] (by decide) (by decide)⟩

/-- Claim C8, the code at the failing inputs. With magic 793712314 and
version 12 on a little-endian host, when the stack slots of the uninitialised
locals hold the bytes of these two constants on entry, `checkModel` returns
true for a file that cannot be opened, for an empty file, and for a
three-byte file that starts with the first three bytes of the magic: no
header field was read in full from any of them. -/
theorem checkModel_true_without_header :
    checkModel 793712314 12 false (fun _ => none) ⟨186, 22, 79, 47⟩ ⟨12, 0, 0, 0⟩
        "missing.bin" = true ∧
      checkModel 793712314 12 false (fun _ => some []) ⟨186, 22, 79, 47⟩ ⟨12, 0, 0, 0⟩
        "empty.bin" = true ∧
      checkModel 793712314 12 false (fun _ => some [186, 22, 79]) ⟨0, 0, 0, 47⟩ ⟨12, 0, 0, 0⟩
        "short.bin" = true := by
  refine ⟨?_, ?_, ?_⟩ <;> decide

/-! ## Prediction engine: theorems -/

/-- Claim C2. For every fastText object, text, `k` and threshold,
`predict` is the list of label components of `predictProba`, in the same
order: the two have the same length and at every position the element of
`predict` is the label of the pair of `predictProba` at that position. -/
theorem predict_eq_labels_of_predictProba {R : Type} (fastText : FastText R) (text : String)
    (k : Int) (threshold : R) :
    predict fastText text k threshold
        = (predictProba fastText text k threshold).map Prod.snd ∧
      (predict fastText text k threshold).length
        = (predictProba fastText text k threshold).length ∧
      ∀ i : Nat, (predict fastText text k threshold)[i]?
        = ((predictProba fastText text k threshold)[i]?).map Prod.snd := by
  have h : predict fastText text k threshold
      = (predictProba fastText text k threshold).map Prod.snd := by
    simp [predict, foldl_push_snd]
  refine ⟨h, ?_, ?_⟩
  · rw [h, List.length_map]
  · intro i
    rw [h, List.getElem?_map]

/-- Claim C3. With the prediction routine of the spec, for every `k >= 1`,
`predictProba` returns at most `k` pairs, every pair has probability at least
`threshold`, and the pairs are sorted by probability in descending order. -/
theorem predictProba_topk_sorted {R : Type} [LinearOrder R] (base : FastText R)
    (candidates : String → List (R × String)) (text : String) (k : Int) (threshold : R)
    (hk : 1 ≤ k) :
    ((predictProba (specFastText base candidates) text k threshold).length : Int) ≤ k ∧
      (∀ p ∈ predictProba (specFastText base candidates) text k threshold,
        threshold ≤ p.1) ∧
      List.Sorted (fun a b : R × String => a.1 ≥ b.1)
        (predictProba (specFastText base candidates) text k threshold) := by
  have hk0 : ¬ k ≤ 0 := by omega
  simp only [predictProba, specFastText, specPredict, if_neg hk0]
  refine ⟨?_, ?_, ?_⟩
  · have h := List.length_take_le k.toNat
      (((candidates text).filter (fun c => decide (threshold ≤ c.1))).insertionSort probGE)
    omega
  · intro p hp
    have h1 := List.mem_of_mem_take hp
    have h2 := (List.perm_insertionSort probGE _).mem_iff.mp h1
    simpa using (List.mem_filter.mp h2).2
  · have hs := List.sorted_insertionSort probGE
      ((candidates text).filter (fun c => decide (threshold ≤ c.1)))
    exact List.Pairwise.sublist (List.take_sublist _ _) hs

/-- Claim C3, at the sample model with `k = 3` and threshold one half. -/
theorem predictProba_topk_sorted_witness :
    (1 : Int) ≤ 3 ∧
      ((predictProba (specFastText sampleFastText sampleCandidates) "the quick fox" 3
          (1 / 2)).length : Int) ≤ 3 ∧
      (∀ p ∈ predictProba (specFastText sampleFastText sampleCandidates) "the quick fox" 3
          (1 / 2), (1 / 2 : ℚ) ≤ p.1) ∧
      List.Sorted (fun a b : ℚ × String => a.1 ≥ b.1)
        (predictProba (specFastText sampleFastText sampleCandidates) "the quick fox" 3
          (1 / 2)) :=
  ⟨by decide,
    predictProba_topk_sorted sampleFastText sampleCandidates "the quick fox" 3 (1 / 2)
      (by decide)⟩

/-- Claim C9. With the prediction routine of the spec, if `k <= 0` then
`predictProba` returns the empty sequence and so does `predict`. -/
theorem predict_nonpositive_k_empty {R : Type} [LinearOrder R] (base : FastText R)
    (candidates : String → List (R × String)) (text : String) (k : Int) (threshold : R)
    (hk : k ≤ 0) :
    predictProba (specFastText base candidates) text k threshold = [] ∧
      predict (specFastText base candidates) text k threshold = [] := by
  have h : predictProba (specFastText base candidates) text k threshold = [] := by
    simp [predictProba, specFastText, specPredict, hk]
  exact ⟨h, by simp [predict, h]⟩

/-- Claim C9, at the sample model with `k = 0` and with `k = -2`. -/
theorem predict_nonpositive_k_empty_witness :
    ((0 : Int) ≤ 0 ∧
        predictProba (specFastText sampleFastText sampleCandidates) "the quick fox" 0 (1 / 2)
          = [] ∧
        predict (specFastText sampleFastText sampleCandidates) "the quick fox" 0 (1 / 2)
          = []) ∧
      ((-2 : Int) ≤ 0 ∧
        predictProba (specFastText sampleFastText sampleCandidates) "the quick fox" (-2) 0
          = [] ∧
        predict (specFastText sampleFastText sampleCandidates) "the quick fox" (-2) 0
          = []) :=
  ⟨⟨by decide,
      predict_nonpositive_k_empty sampleFastText sampleCandidates "the quick fox" 0 (1 / 2)
        (by decide)⟩,
    ⟨by decide,
      predict_nonpositive_k_empty sampleFastText sampleCandidates "the quick fox" (-2) 0
        (by decide)⟩⟩

/-! ## Vector engine: theorems -/

/-- Claim C4. For every loaded model whose dimension is a length (not
negative) and every input string, each of `getWordVector`,
`getSubwordVector`, `getSentenceVector` and `getVector` returns a sequence
whose length equals `getDim()`. -/
theorem vector_length_eq_getDim {R : Type} [Inhabited R] (fastText : FastText R)
    (word subword text : String) (hdim : 0 ≤ getDim fastText) :
    (∃ v, getWordVector fastText word = some v ∧ (v.length : Int) = getDim fastText) ∧
      (∃ v, getSubwordVector fastText subword = some v ∧
        (v.length : Int) = getDim fastText) ∧
      (∃ v, getSentenceVector fastText text = some v ∧
        (v.length : Int) = getDim fastText) ∧
      (∃ v, getVector fastText word = some v ∧ (v.length : Int) = getDim fastText) := by
  have hn : ((getDim fastText).toNat : Int) = getDim fastText := Int.toNat_of_nonneg hdim
  refine ⟨?_, ?_, ?_, ?_⟩ <;>
    simp [getVector, getWordVector, getSubwordVector, getSentenceVector, Vector.alloc, hdim,
      Vector.toStdVector, hn]

/-- Claim C4, at the sample model of dimension 3. -/
theorem vector_length_eq_getDim_witness :
    0 ≤ getDim sampleFastText ∧
      (∃ v, getWordVector sampleFastText "fox" = some v ∧
        (v.length : Int) = getDim sampleFastText) ∧
      (∃ v, getSubwordVector sampleFastText "<fo" = some v ∧
        (v.length : Int) = getDim sampleFastText) ∧
      (∃ v, getSentenceVector sampleFastText "the quick fox" = some v ∧
        (v.length : Int) = getDim sampleFastText) ∧
      (∃ v, getVector sampleFastText "fox" = some v ∧
        (v.length : Int) = getDim sampleFastText) :=
  ⟨by decide,
    vector_length_eq_getDim sampleFastText "fox" "<fo" "the quick fox" (by decide)⟩

/-! ## Vocabulary index: theorems -/

/-- Claim C5. For every loaded model whose dictionary counts are not
negative, `getWords()` has length `getNWords()` and its `i`-th element is
`getWord(i)` for every `0 <= i < getNWords()`; likewise `getLabels()` has
length `getNLabels()` and its `i`-th element is `getLabel(i)`: the
dictionary's order is kept as it is. -/
theorem getWords_getLabels_positional {R : Type} (fastText : FastText R)
    (hw : 0 ≤ getNWords fastText) (hl : 0 ≤ getNLabels fastText) :
    (((getWords fastText).length : Int) = getNWords fastText ∧
        ∀ i : Nat, (i : Int) < getNWords fastText →
          (getWords fastText)[i]? = some (getWord fastText (i : Int))) ∧
      (((getLabels fastText).length : Int) = getNLabels fastText ∧
        ∀ i : Nat, (i : Int) < getNLabels fastText →
          (getLabels fastText)[i]? = some (getLabel fastText (i : Int))) :=
  ⟨collectLoop_spec (getWord fastText) (getNWords fastText) hw,
    collectLoop_spec (getLabel fastText) (getNLabels fastText) hl⟩

/-- Claim C5, at the sample model with two words and two labels. -/
theorem getWords_getLabels_positional_witness :
    0 ≤ getNWords sampleFastText ∧ 0 ≤ getNLabels sampleFastText ∧
      (((getWords sampleFastText).length : Int) = getNWords sampleFastText ∧
        ∀ i : Nat, (i : Int) < getNWords sampleFastText →
          (getWords sampleFastText)[i]? = some (getWord sampleFastText (i : Int))) ∧
      (((getLabels sampleFastText).length : Int) = getNLabels sampleFastText ∧
        ∀ i : Nat, (i : Int) < getNLabels sampleFastText →
          (getLabels sampleFastText)[i]? = some (getLabel sampleFastText (i : Int))) :=
  ⟨by decide, by decide,
    getWords_getLabels_positional sampleFastText (by decide) (by decide)⟩

/-! ## Hyperparameter registry: theorems -/

/-- Claim C6. Enum decoding is total on the two closed enumerations and never
takes the fatal branch: whatever the other fields, `getLossName()` returns
"ns" for negative-sampling, "hs" for hierarchical-softmax and "softmax" for
softmax, and `getModelName()` returns "cbow" for continuous-bag-of-words, "sg"
for skip-gram and "sup" for supervised; so for every loaded model the results
are in the two sets of tokens, and a model with loss softmax and architecture
supervised yields "softmax" and "sup". -/
theorem enum_decoding_total {R : Type} (fastText : FastText R) (l : loss_name)
    (m : model_name) :
    getLossName { fastText with getArgs := { loss := loss_name.ns, model := m } }
        = Outcome.ret "ns" ∧
      getLossName { fastText with getArgs := { loss := loss_name.hs, model := m } }
        = Outcome.ret "hs" ∧
      getLossName { fastText with getArgs := { loss := loss_name.softmax, model := m } }
        = Outcome.ret "softmax" ∧
      getModelName { fastText with getArgs := { loss := l, model := model_name.cbow } }
        = Outcome.ret "cbow" ∧
      getModelName { fastText with getArgs := { loss := l, model := model_name.sg } }
        = Outcome.ret "sg" ∧
      getModelName { fastText with getArgs := { loss := l, model := model_name.sup } }
        = Outcome.ret "sup" ∧
      (∃ s ∈ ["ns", "hs", "softmax"], getLossName fastText = Outcome.ret s) ∧
      (∃ s ∈ ["cbow", "sg", "sup"], getModelName fastText = Outcome.ret s) ∧
      getLossName
          { fastText with getArgs := { loss := loss_name.softmax, model := model_name.sup } }
        = Outcome.ret "softmax" ∧
      getModelName
          { fastText with getArgs := { loss := loss_name.softmax, model := model_name.sup } }
        = Outcome.ret "sup" := by
  refine ⟨rfl, rfl, rfl, rfl, rfl, rfl, ?_, ?_, rfl, rfl⟩
  · cases hl : fastText.getArgs.loss <;> simp [getLossName, hl]
  · cases hm : fastText.getArgs.model <;> simp [getModelName, hm]

/-! ## Model handle: theorems -/

/-- Claim C7. `isModelLoaded()` is true exactly when the handle holds the
scoring model; on a freshly constructed handle it is false; and from every
handle state, after `unloadModel()` all five sub-resources are released and
`isModelLoaded()` is false. -/
theorem isModelLoaded_lifecycle {Matrix Model : Type}
    (p : FastTextPrivateMembers Matrix Model) :
    (isModelLoaded p = true ↔ ∃ m, p.model_ = some m) ∧
      isModelLoaded (FastTextPrivateMembers.fresh : FastTextPrivateMembers Matrix Model)
        = false ∧
      (unloadModel p).args_ = none ∧
      (unloadModel p).dict_ = none ∧
      (unloadModel p).input_ = none ∧
      (unloadModel p).output_ = none ∧
      (unloadModel p).model_ = none ∧
      isModelLoaded (unloadModel p) = false := by
  refine ⟨?_, rfl, rfl, rfl, rfl, rfl, rfl, rfl⟩
  cases hm : p.model_ <;> simp [isModelLoaded, hm]

/-- Claim C10. `test(path, k)` ends the process with the failure status
exactly when the file at `path` cannot be opened; in that case the trace holds
no call of the evaluation routine, and when the file can be opened the trace
holds exactly one such call, on the stream opened on that file and with the
same `k`, and `test` returns. -/
theorem test_exits_iff_cannot_open (fs : FileSystem) (filename : String) (k : Int) :
    ((test fs filename k).exited = some ExitStatus.failure ↔ fs filename = none) ∧
      (test fs filename k).exited
        = (match fs filename with
          | none => some ExitStatus.failure
          | some _ => none) ∧
      (test fs filename k).trace.filter Event.isTestCall
        = (match fs filename with
          | none => []
          | some content => [Event.fastTextTest ⟨true, true, content⟩ k]) := by
  cases h : fs filename <;> simp [test, IfStream.open, h, Event.isTestCall]

end FastTextWrapper
